import Mathlib

/-!
Verification of the retrying HTTP fetch engine of the
`terraform-provider-utilities` repository.

The definitions below are a shallow embedding of
`internal/provider/http/provider.go` (`modelV0.read` and
`makeCustomRetryPolicy`).  External collaborators (the
`go-retryablehttp` client loop and its `DefaultRetryPolicy`, the Go
standard library's base64 and UTF-8 routines) are modelled from the
specification's description of them, with doc comments marking each
such definition.  Go byte strings are represented as `List Nat` with
every element `< 256`; machine integers are `Int`/`Nat`.
-/

/-- A cancellation state of the calling Go context: `context.Canceled`
or `context.DeadlineExceeded`. -/
inductive CtxError where
  | canceled
  | deadlineExceeded
deriving DecidableEq

/-- A transport-level error (`*url.Error` returned by
`http.Client.Do`).  `timeout` is the value of `Timeout()`;
`baseNonRetryable` abstracts the error classes the external baseline
policy refuses to retry (too many redirects, invalid scheme or header,
certificate errors). -/
structure TransportError where
  timeout : Bool
  baseNonRetryable : Bool
deriving DecidableEq

/-- An HTTP response as observed by one attempt.  `status` is the Go
`resp.Status` line (e.g. `"503 Service Unavailable"`); `body` is the
raw byte sequence delivered by `io.ReadAll`; `bodyReadErr` is the
error, if any, raised while reading the body. -/
structure Response where
  statusCode : Int
  status : String
  headers : List (String × List String)
  body : List Nat
  bodyReadErr : Option String
deriving DecidableEq

/-- The outcome of one HTTP attempt: either a response (`err == nil`)
or a transport error (`err != nil`, no usable response). -/
inductive AttemptOutcome where
  | success (r : Response)
  | failure (te : TransportError)
deriving DecidableEq

/-- An error value produced by a retry-policy evaluation. -/
inductive PolicyErr where
  | ctxError (ce : CtxError)
  | unexpectedStatus (status : String)
  | transportErr (te : TransportError)
deriving DecidableEq

/-- Modelled from the spec: the baseline policy of the external
`go-retryablehttp` library (`baseRetryPolicy`), which the spec
describes as "retry on any transport-level error, and retry on 5xx
status codes except 501, which is treated as non-retryable".  The
library additionally refuses certain transport-error classes
(abstracted as `baseNonRetryable`), retries 429 and status 0. -/
def baseRetryPolicy : AttemptOutcome → Bool × Option PolicyErr
  | .failure te =>
    if te.baseNonRetryable then (false, some (.transportErr te)) else (true, none)
  | .success r =>
    if r.statusCode = 429 then (true, none)
    else if r.statusCode = 0 ∨ (500 ≤ r.statusCode ∧ r.statusCode ≠ 501) then
      (true, some (.unexpectedStatus r.status))
    else (false, none)

/-- Modelled from the spec: the external
`retryablehttp.DefaultRetryPolicy`.  It stops with the context error
when the context is cancelled, and otherwise returns the baseline
decision while discarding the baseline's error value. -/
def defaultRetryPolicy (ctxErr : Option CtxError) (outcome : AttemptOutcome) :
    Bool × Option PolicyErr :=
  match ctxErr with
  | some ce => (false, some (.ctxError ce))
  | none => ((baseRetryPolicy outcome).fst, none)

/-- Embedding of `makeCustomRetryPolicy` (provider.go).  The returned
closure is a function of the context state and the attempt outcome. -/
def customRetryPolicy (successStatusCodes : List Int) (ctxErr : Option CtxError)
    (outcome : AttemptOutcome) : Bool × Option PolicyErr :=
  match ctxErr with
  | some ce => (false, some (.ctxError ce))
  | none =>
    let d := defaultRetryPolicy none outcome
    if d.fst = false ∧ d.snd.isSome = true then (false, d.snd)
    else
      match outcome with
      | .failure _ => (true, none)
      | .success resp =>
        if successStatusCodes.isEmpty then d
        else if successStatusCodes.contains resp.statusCode then (false, none)
        else (true, some (.unexpectedStatus resp.status))

/-- The state of the retry loop when it terminates: how many HTTP
attempts were performed, and the `shouldRetry` / `checkErr` pair of the
last policy evaluation. -/
structure LoopState where
  attempts : Nat
  shouldRetry : Bool
  checkErr : Option PolicyErr
deriving DecidableEq

/-- Modelled from the spec: the attempt loop of the external
`retryablehttp.Client.Do`.  The Go loop runs `i = 0, 1, ...`, breaks
when the policy says stop, and otherwise breaks when
`RetryMax - i <= 0`; here `remain` carries `max (RetryMax - i) 0`. -/
def doLoopAux (check : Nat → Bool × Option PolicyErr) : Nat → Nat → LoopState
  | 0, i =>
    { attempts := i + 1, shouldRetry := (check i).fst, checkErr := (check i).snd }
  | remain + 1, i =>
    if (check i).fst = true then doLoopAux check remain (i + 1)
    else { attempts := i + 1, shouldRetry := (check i).fst, checkErr := (check i).snd }

/-- The cause wrapped into the final "giving up" error of the client:
the policy's `checkErr` when present, otherwise the transport error of
the last attempt. -/
inductive Cause where
  | policy (e : PolicyErr)
  | transport (te : TransportError)
deriving DecidableEq

/-- The error returned by the client when the request was not
successful: the number of attempts performed and the optional cause. -/
structure DoErr where
  attempts : Nat
  cause : Option Cause
deriving DecidableEq

/-- The cause selection of the final error: the policy's `checkErr`
when present, otherwise the transport error of the last attempt,
otherwise nothing. -/
def doCause (o : AttemptOutcome) (ce : Option PolicyErr) : Option Cause :=
  match ce, o with
  | some e, _ => some (.policy e)
  | none, .failure te => some (.transport te)
  | none, .success _ => none

/-- Modelled from the spec: the result classification of the external
`retryablehttp.Client.Do` after its loop ends.  The request succeeds
exactly when the last attempt produced a response, the policy reported
no error, and the policy decided not to retry. -/
def doResult (outcomes : Nat → AttemptOutcome) (st : LoopState) :
    Except DoErr Response :=
  match outcomes (st.attempts - 1), st.checkErr, st.shouldRetry with
  | .success r, none, false => .ok r
  | o, ce, _ =>
    .error { attempts := st.attempts, cause := doCause o ce }

/-- Modelled from the spec: the standard base64 alphabet of RFC 4648,
used by the Go standard library's `base64.StdEncoding`. -/
def b64Alphabet : List Char :=
  "ABCDEFGHIJKLMNOPQRSTUVWXYZabcdefghijklmnopqrstuvwxyz0123456789+/".toList

/-- The alphabet character for a sextet value. -/
def b64Char (n : Nat) : Char := b64Alphabet.getD n 'A'

/-- The sextet value of an alphabet character, `none` for characters
outside the alphabet (in particular for the padding `=`). -/
def b64Val (c : Char) : Option Nat := b64Alphabet.findIdx? (fun d => d == c)

/-- Modelled from the spec: `base64.StdEncoding.EncodeToString` of the
Go standard library, RFC 4648 standard encoding with padding. -/
def base64Encode : List Nat → List Char
  | b0 :: b1 :: b2 :: rest =>
    b64Char (b0 / 4) :: b64Char (b0 % 4 * 16 + b1 / 16) ::
      b64Char (b1 % 16 * 4 + b2 / 64) :: b64Char (b2 % 64) :: base64Encode rest
  | [b0, b1] =>
    [b64Char (b0 / 4), b64Char (b0 % 4 * 16 + b1 / 16), b64Char (b1 % 16 * 4), '=']
  | [b0] => [b64Char (b0 / 4), b64Char (b0 % 4 * 16), '=', '=']
  | [] => []

/-- Standard base64 decoding in the words of the spec ("decoding
`responseBodyBase64` with standard base64"): inverts quadruples of
alphabet characters with optional trailing padding, `none` on any
malformed input. -/
def base64Decode : List Char → Option (List Nat)
  | [] => some []
  | c0 :: c1 :: c2 :: c3 :: rest =>
    match b64Val c0, b64Val c1 with
    | some v0, some v1 =>
      if c2 = '=' ∧ c3 = '=' ∧ rest = [] then some [v0 * 4 + v1 / 16]
      else if c3 = '=' ∧ rest = [] then
        match b64Val c2 with
        | some v2 => some [v0 * 4 + v1 / 16, v1 % 16 * 16 + v2 / 4]
        | none => none
      else
        match b64Val c2, b64Val c3, base64Decode rest with
        | some v2, some v3, some tail =>
          some ((v0 * 4 + v1 / 16) :: (v1 % 16 * 16 + v2 / 4) :: (v2 % 4 * 64 + v3) :: tail)
        | _, _, _ => none
    | _, _ => none
  | _ => none

/-- Modelled from the spec: `utf8.Valid` of the Go standard library.
Accepts exactly the byte sequences that are well-formed UTF-8
(no overlong forms, no surrogates, maximum U+10FFFF). -/
def utf8Valid : List Nat → Bool
  | [] => true
  | b :: rest =>
    if b < 0x80 then utf8Valid rest
    else if b < 0xC2 then false
    else if b < 0xE0 then
      match rest with
      | c1 :: rest2 =>
        if 0x80 ≤ c1 ∧ c1 < 0xC0 then utf8Valid rest2 else false
      | [] => false
    else if b < 0xF0 then
      match rest with
      | c1 :: c2 :: rest2 =>
        let lo := if b = 0xE0 then 0xA0 else 0x80
        let hi := if b = 0xED then 0xA0 else 0xC0
        if lo ≤ c1 ∧ c1 < hi ∧ 0x80 ≤ c2 ∧ c2 < 0xC0 then utf8Valid rest2 else false
      | _ => false
    else if b < 0xF5 then
      match rest with
      | c1 :: c2 :: c3 :: rest2 =>
        let lo := if b = 0xF0 then 0x90 else 0x80
        let hi := if b = 0xF4 then 0x90 else 0xC0
        if lo ≤ c1 ∧ c1 < hi ∧ 0x80 ≤ c2 ∧ c2 < 0xC0 ∧ 0x80 ≤ c3 ∧ c3 < 0xC0 then
          utf8Valid rest2
        else false
      | _ => false
    else false

/-- Severity of a diagnostic, mirroring
`diagnostics.AddError` / `diagnostics.AddWarning`. -/
inductive Severity where
  | error
  | warning
deriving DecidableEq

/-- The structured content of a diagnostic's detail text, one
constructor per `fmt.Sprintf` site in `modelV0.read`. -/
inductive DiagDetail where
  | transportCast
  | tlsCaCert
  | keyPair (errMsg : String)
  | creatingRequest (errMsg : String)
  | requestTimeout (timeoutMs : Int) (e : DoErr)
  | makingRequest (e : DoErr)
  | readingBody (errMsg : String)
  | utf8Warning
deriving DecidableEq

/-- One entry of the diagnostics list built by `modelV0.read`. -/
structure Diagnostic where
  severity : Severity
  summary : String
  detail : DiagDetail
deriving DecidableEq

/-- Whether a diagnostic is fatal (error-level). -/
def Diagnostic.isError (d : Diagnostic) : Bool :=
  match d.severity with
  | .error => true
  | .warning => false

/-- Whether a diagnostics list contains a fatal entry
(`diagnostics.HasError`). -/
def hasError (ds : List Diagnostic) : Bool := ds.any Diagnostic.isError

/-- The warning attached when the response body is not valid UTF-8. -/
def utf8WarnDiag : Diagnostic :=
  { severity := .warning
  , summary := "Response body is not recognized as UTF-8"
  , detail := .utf8Warning }

/-- The per-call TLS-relevant state of the cloned transport. -/
structure Transport where
  insecureSkipVerify : Bool
  rootCAs : Option String
  certificates : Option (String × String)
deriving DecidableEq

/-- The outgoing request after method, URL, body and header
application. -/
structure HttpRequest where
  method : String
  url : String
  headers : List (String × String)
  host : Option String
  body : Option String
deriving DecidableEq

/-- The `retry` block of the configuration (`retryModel`); `none`
fields are null in the configuration and read as `0` by
`ValueInt64`. -/
structure RetryModel where
  attempts : Option Int
  minDelay : Option Int
  maxDelay : Option Int
deriving DecidableEq

/-- The input fields of `modelV0` consumed by `read`.  `method` is the
`ValueString` view (null reads as `""`); optional fields are `none`
when null. -/
structure ModelV0 where
  url : String
  method : String
  requestHeaders : List (String × String)
  requestBody : Option String
  requestTimeout : Option Int
  retry : Option RetryModel
  caCertPEM : Option String
  clientCertPEM : Option String
  clientKeyPEM : Option String
  insecure : Option Bool
  successStatusCodes : Option (List Int)

/-- The external world of one `read` invocation: whether the default
transport is an `*http.Transport`, the outcomes of the Go standard
library parsers (`AppendCertsFromPEM`, `X509KeyPair`,
`NewRequestWithContext`), the context state observed at each policy
evaluation and the outcome of each HTTP attempt. -/
structure Env where
  defaultTransportOk : Bool
  appendCertsOk : String → Bool
  keyPairErr : String → String → Option String
  newRequestErr : Option String
  ctxErr : Nat → Option CtxError
  server : Nat → AttemptOutcome

/-- Result of the setup phase of `read` (everything before
`retryClient.Do`): either an early return with one fatal diagnostic,
or the prepared transport, request, retry bound, timeout and success
status code list. -/
inductive PrepResult where
  | failed (d : Diagnostic)
  | ready (tr : Transport) (req : HttpRequest) (retryMax : Int) (timeoutMs : Int)
      (codes : List Int)
deriving DecidableEq

/-- `Header.Set` for the request: replaces any previous value of the
name and records the pair. -/
def headerSet (hs : List (String × String)) (name value : String) :
    List (String × String) :=
  hs.filter (fun p => !(p.fst == name)) ++ [(name, value)]

/-- The header loop of `read`: apply each configured header with
`Header.Set`, and override the request host when the name is
case-insensitively `host`. -/
def applyHeaders (req : HttpRequest) : List (String × String) → HttpRequest
  | [] => req
  | (name, value) :: rest =>
    applyHeaders
      { req with
        headers := headerSet req.headers name value
      , host := if name.toLower = "host" then some value else req.host } rest

/-- Embedding of `read` lines 205-278: retry block extraction, timeout,
`RetryMax`, success status codes, request construction, body and
headers. -/
def prepareRequest (m : ModelV0) (env : Env) (method : String) (tr : Transport) :
    PrepResult :=
  let retry := (m.retry.getD { attempts := none, minDelay := none, maxDelay := none })
  let timeoutMs := if 0 < m.requestTimeout.getD 0 then m.requestTimeout.getD 0 else 0
  let retryMax := retry.attempts.getD 0
  let codes := m.successStatusCodes.getD []
  match env.newRequestErr with
  | some e =>
    .failed
      { severity := .error, summary := "Error creating request"
      , detail := .creatingRequest e }
  | none =>
    let req0 : HttpRequest :=
      { method := method, url := m.url, headers := [], host := none
      , body := m.requestBody }
    .ready tr (applyHeaders req0 m.requestHeaders) retryMax timeoutMs codes

/-- Embedding of `read` lines 193-203: attach the client identity only
when both the certificate and the key are present. -/
def prepareClientCert (m : ModelV0) (env : Env) (method : String) (tr : Transport) :
    PrepResult :=
  match m.clientCertPEM, m.clientKeyPEM with
  | some c, some k =>
    match env.keyPairErr c k with
    | some e =>
      .failed
        { severity := .error, summary := "error creating x509 key pair"
        , detail := .keyPair e }
    | none => prepareRequest m env method { tr with certificates := some (c, k) }
  | _, _ => prepareRequest m env method tr

/-- Embedding of `read` lines 138-203: method default, transport cast
and clone, insecure flag, CA pool, client identity. -/
def prepare (m : ModelV0) (env : Env) : PrepResult :=
  let method := if m.method = "" then "GET" else m.method
  if env.defaultTransportOk = false then
    .failed
      { severity := .error, summary := "Error configuring http transport"
      , detail := .transportCast }
  else
    let tr0 : Transport :=
      { insecureSkipVerify := false, rootCAs := none, certificates := none }
    let tr1 :=
      match m.insecure with
      | some b => { tr0 with insecureSkipVerify := b }
      | none => tr0
    match m.caCertPEM with
    | some ca =>
      if env.appendCertsOk ca = false then
        .failed
          { severity := .error, summary := "Error configuring TLS client"
          , detail := .tlsCaCert }
      else prepareClientCert m env method { tr1 with rootCAs := some ca }
    | none => prepareClientCert m env method tr1

/-- The retry loop of `read` for a prepared request: evaluates the
custom policy against the context state and outcome of each attempt. -/
def attemptCheck (env : Env) (codes : List Int) (i : Nat) : Bool × Option PolicyErr :=
  customRetryPolicy codes (env.ctxErr i) (env.server i)

/-- The loop state of `retryClient.Do` for this invocation. -/
def readLoopState (env : Env) (codes : List Int) (retryMax : Int) : LoopState :=
  doLoopAux (attemptCheck env codes) retryMax.toNat 0

/-- The value returned by `retryClient.Do` for this invocation. -/
def readDo (env : Env) (codes : List Int) (retryMax : Int) : Except DoErr Response :=
  doResult env.server (readLoopState env codes retryMax)

/-- The diagnostic built from a failed `retryClient.Do` (`read` lines
281-303): a timeout-classified transport error gets the timeout detail
(which embeds the configured timeout), everything else the generic
"Error making request" detail. -/
def mkDoErrDiag (timeoutMs : Int) (e : DoErr) : Diagnostic :=
  match e.cause with
  | some (.transport te) =>
    if te.timeout then
      { severity := .error, summary := "Error making request"
      , detail := .requestTimeout timeoutMs e }
    else
      { severity := .error, summary := "Error making request"
      , detail := .makingRequest e }
  | _ =>
    { severity := .error, summary := "Error making request"
    , detail := .makingRequest e }

/-- The output fields of `modelV0` written by a successful `read`
(lines 339-344).  Go strings are byte sequences, so `responseBody` and
`body` hold the raw bytes. -/
structure FetchResult where
  id : String
  responseHeaders : List (String × String)
  responseBody : List Nat
  body : List Nat
  responseBodyBase64 : List Char
  statusCode : Int
deriving DecidableEq

/-- The observable outcome of one `read` invocation: the diagnostics
added, the result fields (set together, or not at all), and the number
of HTTP attempts performed (0 when no network call was made). -/
structure ReadOutput where
  diagnostics : List Diagnostic
  result : Option FetchResult
  attemptsMade : Nat
deriving DecidableEq

/-- Embedding of `read` lines 306-345: read the body, attach the UTF-8
warning when needed, join multi-valued headers with `", "`, and
populate the result fields. -/
def processResponse (requestURL : String) (r : Response) (attempts : Nat) :
    ReadOutput :=
  match r.bodyReadErr with
  | some e =>
    { diagnostics :=
        [{ severity := .error, summary := "Error reading response body"
         , detail := .readingBody e }]
    , result := none, attemptsMade := attempts }
  | none =>
    { diagnostics := if utf8Valid r.body then [] else [utf8WarnDiag]
    , result := some
        { id := requestURL
        , responseHeaders := r.headers.map (fun p => (p.fst, String.intercalate ", " p.snd))
        , responseBody := r.body
        , body := r.body
        , responseBodyBase64 := base64Encode r.body
        , statusCode := r.statusCode }
    , attemptsMade := attempts }

/-- Embedding of `modelV0.read`: setup, retrying execution,
classification and response post-processing. -/
def runRead (m : ModelV0) (env : Env) : ReadOutput :=
  match prepare m env with
  | .failed d => { diagnostics := [d], result := none, attemptsMade := 0 }
  | .ready _tr _req retryMax timeoutMs codes =>
    match doResult env.server (readLoopState env codes retryMax) with
    | .error e =>
      { diagnostics := [mkDoErrDiag timeoutMs e], result := none
      , attemptsMade := (readLoopState env codes retryMax).attempts }
    | .ok r => processResponse m.url r (readLoopState env codes retryMax).attempts

/-- A minimal request specification: only the URL is set, every
optional field is null. -/
def specBase : ModelV0 :=
  { url := "http://example.test", method := "", requestHeaders := []
  , requestBody := none, requestTimeout := none, retry := none, caCertPEM := none
  , clientCertPEM := none, clientKeyPEM := none, insecure := none
  , successStatusCodes := none }

/-- `specBase` with `retry.attempts = n`. -/
def specRetry (n : Int) : ModelV0 :=
  { specBase with retry := some { attempts := some n, minDelay := none, maxDelay := none } }

/-- `specRetry n` with a success status code list. -/
def specRetryCodes (n : Int) (codes : List Int) : ModelV0 :=
  { specRetry n with successStatusCodes := some codes }

/-- A benign environment whose every attempt observes the same outcome:
the default transport casts, the parsers succeed, the request builds
and the context is never cancelled. -/
def envAlways (o : AttemptOutcome) : Env :=
  { defaultTransportOk := true, appendCertsOk := fun _ => true
  , keyPairErr := fun _ _ => none, newRequestErr := none
  , ctxErr := fun _ => none, server := fun _ => o }

/-- A headerless response with the given status and body, whose body
read succeeds. -/
def respOf (code : Int) (status : String) (body : List Nat) : Response :=
  { statusCode := code, status := status, headers := [], body := body
  , bodyReadErr := none }

/-- Every sextet value maps back through the alphabet. -/
theorem b64Val_b64Char : ∀ n, n < 64 → b64Val (b64Char n) = some n := by decide

/-- No alphabet character is the padding character. -/
theorem b64Char_ne_pad : ∀ n, n < 64 → b64Char n ≠ '=' := by decide

/-- Standard base64 decoding inverts the encoding on byte sequences. -/
theorem base64_decode_encode :
    ∀ bs : List Nat, (∀ b ∈ bs, b < 256) → base64Decode (base64Encode bs) = some bs
  | [], _ => rfl
  | [b0], h => by
    have hb0 : b0 < 256 := h b0 (by simp)
    have h1 : b0 / 4 < 64 := by omega
    have h2 : b0 % 4 * 16 < 64 := by omega
    simp only [base64Encode, base64Decode, b64Val_b64Char _ h1, b64Val_b64Char _ h2]
    simp only [and_self, and_true, if_pos, Option.some.injEq, List.cons.injEq, and_true]
    omega
  | [b0, b1], h => by
    have hb0 : b0 < 256 := h b0 (by simp)
    have hb1 : b1 < 256 := h b1 (by simp)
    have h1 : b0 / 4 < 64 := by omega
    have h2 : b0 % 4 * 16 + b1 / 16 < 64 := by omega
    have h3 : b1 % 16 * 4 < 64 := by omega
    simp only [base64Encode, base64Decode, b64Val_b64Char _ h1, b64Val_b64Char _ h2]
    rw [if_neg (fun hc => b64Char_ne_pad _ h3 hc.1)]
    rw [if_pos (by simp)]
    simp only [b64Val_b64Char _ h3, Option.some.injEq, List.cons.injEq, and_true]
    omega
  | b0 :: b1 :: b2 :: rest, h => by
    have hb0 : b0 < 256 := h b0 (by simp)
    have hb1 : b1 < 256 := h b1 (by simp)
    have hb2 : b2 < 256 := h b2 (by simp)
    have h1 : b0 / 4 < 64 := by omega
    have h2 : b0 % 4 * 16 + b1 / 16 < 64 := by omega
    have h3 : b1 % 16 * 4 + b2 / 64 < 64 := by omega
    have h4 : b2 % 64 < 64 := by omega
    have ih := base64_decode_encode rest (fun b hb => h b (by simp [hb]))
    simp only [base64Encode, base64Decode, b64Val_b64Char _ h1, b64Val_b64Char _ h2]
    rw [if_neg (fun hc => b64Char_ne_pad _ h3 hc.1)]
    rw [if_neg (fun hc => b64Char_ne_pad _ h4 hc.1)]
    simp only [b64Val_b64Char _ h3, b64Val_b64Char _ h4, ih, Option.some.injEq,
      List.cons.injEq]
    exact ⟨by omega, by omega, by omega, trivial⟩

/-- When the first policy evaluation stops, the loop performs one
attempt. -/
theorem doLoopAux_stop (check : Nat → Bool × Option PolicyErr) (remain i : Nat)
    (h : (check i).fst = false) :
    doLoopAux check remain i =
      { attempts := i + 1, shouldRetry := false, checkErr := (check i).snd } := by
  cases remain with
  | zero => simp [doLoopAux, h]
  | succ n => simp [doLoopAux, h]

/-- When every policy evaluation decides to retry, the loop spends its
whole budget: starting at attempt `i` with `remain` retries left it
performs `remain + 1` further attempts. -/
theorem doLoopAux_all (check : Nat → Bool × Option PolicyErr)
    (h : ∀ j, (check j).fst = true) :
    ∀ remain i, doLoopAux check remain i =
      { attempts := i + remain + 1, shouldRetry := true
      , checkErr := (check (i + remain)).snd } := by
  intro remain
  induction remain with
  | zero => intro i; simp [doLoopAux, h i]
  | succ n ihn =>
    intro i
    have harith : i + 1 + n = i + (n + 1) := by omega
    simp [doLoopAux, h i, ihn (i + 1), harith]

/-- When the last policy evaluation decided to retry, the client gives
up with an error carrying the attempt count and the selected cause. -/
theorem doResult_of_retry (outcomes : Nat → AttemptOutcome) (st : LoopState)
    (h : st.shouldRetry = true) :
    doResult outcomes st =
      .error { attempts := st.attempts
             , cause := doCause (outcomes (st.attempts - 1)) st.checkErr } := by
  unfold doResult
  cases ho : outcomes (st.attempts - 1) <;> cases hce : st.checkErr <;> simp [h]

/-- When the loop stopped on a response with no policy error, the
client returns the response. -/
theorem doResult_of_ok (outcomes : Nat → AttemptOutcome) (st : LoopState)
    (r : Response) (ho : outcomes (st.attempts - 1) = .success r)
    (hce : st.checkErr = none) (hs : st.shouldRetry = false) :
    doResult outcomes st = .ok r := by
  unfold doResult
  rw [ho, hce, hs]

/-- The diagnostic of a failed client call is always fatal. -/
theorem mkDoErrDiag_severity (t : Int) (e : DoErr) :
    (mkDoErrDiag t e).severity = .error := by
  unfold mkDoErrDiag
  cases hc : e.cause with
  | none => rfl
  | some c =>
    cases c with
    | policy e' => rfl
    | transport te => by_cases hte : te.timeout <;> simp [hte]

/-- A diagnostic with error severity is fatal. -/
theorem isError_of_severity (d : Diagnostic) (h : d.severity = .error) :
    d.isError = true := by
  unfold Diagnostic.isError
  rw [h]

/-- Every early return of the setup phase carries a fatal
diagnostic. -/
theorem prepare_failed_severity (m : ModelV0) (env : Env) (d : Diagnostic)
    (h : prepare m env = .failed d) : d.severity = .error := by
  unfold prepare prepareClientCert prepareRequest at h
  repeat' split at h
  all_goals simp_all
  all_goals rw [← h]

/-- C4: for every attempt whose outcome is a transport-level error and
whose calling context is not cancelled, the custom retry policy decides
to retry with no error, regardless of the baseline decision for that
error (in particular also when the baseline classified the error as
non-retryable). -/
theorem claim4_transport_error_always_retried (codes : List Int)
    (te : TransportError) :
    customRetryPolicy codes none (.failure te) = (true, none) := by
  cases hb : te.baseNonRetryable <;>
    simp [customRetryPolicy, defaultRetryPolicy, baseRetryPolicy, hb]

/-- C5: for every invocation of the retry decision with an already
cancelled calling context, the policy stops (does not retry) and
surfaces the cancellation, regardless of the success status code list
and of the attempt's outcome. -/
theorem claim5_cancellation_preempts (codes : List Int) (ce : CtxError)
    (outcome : AttemptOutcome) :
    customRetryPolicy codes (some ce) outcome = (false, some (.ctxError ce)) := rfl

/-- C1: when every attempt of a prepared fetch yields a retryable
policy outcome (for example a server that always answers 503 with no
success status code list), the engine performs exactly
`retry.attempts + 1` HTTP attempts and returns a fatal diagnostic
instead of a result. -/
theorem claim1_exhausts_attempts (m : ModelV0) (env : Env) (N : Int)
    (tr : Transport) (req : HttpRequest) (t : Int) (codes : List Int)
    (hprep : prepare m env = .ready tr req N t codes)
    (hN : 0 ≤ N)
    (hretry : ∀ i, (attemptCheck env codes i).fst = true) :
    (runRead m env).attemptsMade = N.toNat + 1 ∧
      (runRead m env).result = none ∧
      hasError (runRead m env).diagnostics = true := by
  have hst : readLoopState env codes N =
      { attempts := N.toNat + 1, shouldRetry := true
      , checkErr := (attemptCheck env codes N.toNat).snd } := by
    unfold readLoopState
    rw [doLoopAux_all (attemptCheck env codes) hretry N.toNat 0]
    simp
  have hdo : doResult env.server (readLoopState env codes N) =
      .error { attempts := N.toNat + 1
             , cause := doCause (env.server N.toNat)
                 ((attemptCheck env codes N.toNat).snd) } := by
    rw [doResult_of_retry env.server _ (by rw [hst])]
    rw [hst]
    simp
  have hattempts : (readLoopState env codes N).attempts = N.toNat + 1 := by
    rw [hst]
  unfold runRead
  rw [hprep]
  simp only [hdo, hattempts]
  refine ⟨trivial, trivial, ?_⟩
  simp only [hasError, List.any_cons, List.any_nil, Bool.or_false]
  exact isError_of_severity _ (mkDoErrDiag_severity t _)

/-- Concrete run for C1: with `retry.attempts = 2` and a server that
always answers 503, the engine performs three attempts and fails. -/
theorem claim1_exhausts_attempts_check :
    (runRead (specRetry 2)
        (envAlways (.success (respOf 503 "503 Service Unavailable" [])))).attemptsMade
      = 3 ∧
    (runRead (specRetry 2)
        (envAlways (.success (respOf 503 "503 Service Unavailable" [])))).result
      = none ∧
    hasError (runRead (specRetry 2)
        (envAlways (.success (respOf 503 "503 Service Unavailable" [])))).diagnostics
      = true :=
  claim1_exhausts_attempts (specRetry 2)
    (envAlways (.success (respOf 503 "503 Service Unavailable" []))) 2
    { insecureSkipVerify := false, rootCAs := none, certificates := none }
    { method := "GET", url := "http://example.test", headers := [], host := none
    , body := none }
    0 [] (by decide) (by decide) (fun _ => rfl)

/-- C2: with a non-empty success status code list, a response whose
status is in the list stops the policy with success; a response whose
status is outside the list is retried (with the unexpected-status
error) regardless of the baseline decision; and when every attempt
yields such an out-of-list response the engine exhausts its attempts
and reports the unexpected-status condition in a fatal diagnostic. -/
theorem claim2_success_codes_override (codes : List Int) (hne : codes ≠ []) :
    (∀ r : Response, codes.contains r.statusCode = true →
      customRetryPolicy codes none (.success r) = (false, none)) ∧
    (∀ r : Response, codes.contains r.statusCode = false →
      customRetryPolicy codes none (.success r) =
        (true, some (.unexpectedStatus r.status))) ∧
    (∀ (m : ModelV0) (env : Env) (N : Int) (tr : Transport) (req : HttpRequest)
        (t : Int) (r : Response),
      prepare m env = .ready tr req N t codes →
      (∀ i, env.ctxErr i = none) →
      (∀ i, env.server i = .success r) →
      codes.contains r.statusCode = false →
      (runRead m env).result = none ∧
        (runRead m env).diagnostics =
          [{ severity := .error, summary := "Error making request"
           , detail := .makingRequest
               { attempts := N.toNat + 1
               , cause := some (.policy (.unexpectedStatus r.status)) } }]) := by
  have hemp : codes.isEmpty = false := by
    cases codes with
    | nil => exact absurd rfl hne
    | cons a l => rfl
  have hin : ∀ r : Response, codes.contains r.statusCode = true →
      customRetryPolicy codes none (.success r) = (false, none) := by
    intro r hr
    have hmem : r.statusCode ∈ codes := by simpa using hr
    simp [customRetryPolicy, defaultRetryPolicy, hemp, hmem]
  have hout : ∀ r : Response, codes.contains r.statusCode = false →
      customRetryPolicy codes none (.success r) =
        (true, some (.unexpectedStatus r.status)) := by
    intro r hr
    have hmem : r.statusCode ∉ codes := by simpa using hr
    simp [customRetryPolicy, defaultRetryPolicy, hemp, hmem]
  refine ⟨hin, hout, ?_⟩
  intro m env N tr req t r hprep hctx hsrv hr
  have hretry : ∀ i, (attemptCheck env codes i).fst = true := by
    intro i
    rw [attemptCheck, hctx i, hsrv i, hout r hr]
  have hsnd : ∀ i, (attemptCheck env codes i).snd =
      some (.unexpectedStatus r.status) := by
    intro i
    rw [attemptCheck, hctx i, hsrv i, hout r hr]
  have hst : readLoopState env codes N =
      { attempts := N.toNat + 1, shouldRetry := true
      , checkErr := (attemptCheck env codes N.toNat).snd } := by
    unfold readLoopState
    rw [doLoopAux_all (attemptCheck env codes) hretry N.toNat 0]
    simp
  have hdo : doResult env.server (readLoopState env codes N) =
      .error { attempts := N.toNat + 1
             , cause := some (.policy (.unexpectedStatus r.status)) } := by
    rw [doResult_of_retry env.server _ (by rw [hst])]
    rw [hst]
    simp only [hsnd, hsrv, doCause]
  have hattempts : (readLoopState env codes N).attempts = N.toNat + 1 := by
    rw [hst]
  unfold runRead
  rw [hprep]
  simp only [hdo, hattempts]
  exact ⟨trivial, rfl⟩

/-- Concrete run for C2: `successStatusCodes = [201]` against a server
always answering 200: the in-list/out-of-list policy decisions, and
the exhaustion run with `retry.attempts = 2`. -/
theorem claim2_success_codes_override_check :
    customRetryPolicy [201] none (.success (respOf 201 "201 Created" [])) =
      (false, none) ∧
    customRetryPolicy [201] none (.success (respOf 200 "200 OK" [])) =
      (true, some (.unexpectedStatus "200 OK")) ∧
    (runRead (specRetryCodes 2 [201])
        (envAlways (.success (respOf 200 "200 OK" [])))).result = none ∧
    (runRead (specRetryCodes 2 [201])
        (envAlways (.success (respOf 200 "200 OK" [])))).diagnostics =
      [{ severity := .error, summary := "Error making request"
       , detail := .makingRequest
           { attempts := 3
           , cause := some (.policy (.unexpectedStatus "200 OK")) } }] := by
  have h := claim2_success_codes_override [201] (by decide)
  have h3 := h.2.2 (specRetryCodes 2 [201])
    (envAlways (.success (respOf 200 "200 OK" []))) 2
    { insecureSkipVerify := false, rootCAs := none, certificates := none }
    { method := "GET", url := "http://example.test", headers := [], host := none
    , body := none }
    0 (respOf 200 "200 OK" []) (by decide) (fun _ => rfl) (fun _ => rfl) (by decide)
  exact ⟨h.1 (respOf 201 "201 Created" []) (by decide),
    h.2.1 (respOf 200 "200 OK" []) (by decide), h3.1, h3.2⟩

/-- C3 counterexample: with `retry.attempts = 1`, no success status
code list, and a server answering 501, the engine performs exactly one
attempt but produces NO fatal diagnostic: it returns a successful
result whose status code is 501, contradicting the claim that a fatal
diagnostic reporting the 501 is returned. -/
theorem claim3_counterexample :
    (runRead (specRetry 1)
        (envAlways (.success (respOf 501 "501 Not Implemented" [])))).attemptsMade
      = 1 ∧
    hasError (runRead (specRetry 1)
        (envAlways (.success (respOf 501 "501 Not Implemented" [])))).diagnostics
      = false ∧
    ((runRead (specRetry 1)
        (envAlways (.success (respOf 501 "501 Not Implemented" [])))).result.map
          FetchResult.statusCode)
      = some 501 := by
  decide

/-- C3 (amended): with retry attempts at least 1, no success status
code list, and a first attempt answering 501 with a readable body, the
engine performs exactly one attempt (501 is not retried) and returns a
successful result carrying status code 501, with no fatal
diagnostic. -/
theorem claim3_501_not_retried (m : ModelV0) (env : Env) (N : Int)
    (tr : Transport) (req : HttpRequest) (t : Int) (r : Response)
    (hprep : prepare m env = .ready tr req N t [])
    (hN : 1 ≤ N)
    (hctx : env.ctxErr 0 = none)
    (hsrv : env.server 0 = .success r)
    (hcode : r.statusCode = 501)
    (hread : r.bodyReadErr = none) :
    (runRead m env).attemptsMade = 1 ∧
      hasError (runRead m env).diagnostics = false ∧
      ∃ fr, (runRead m env).result = some fr ∧ fr.statusCode = 501 := by
  have hcheck : attemptCheck env [] 0 = (false, none) := by
    rw [attemptCheck, hctx, hsrv]
    simp [customRetryPolicy, defaultRetryPolicy, baseRetryPolicy, hcode]
  have hst : readLoopState env [] N =
      { attempts := 1, shouldRetry := false, checkErr := none } := by
    unfold readLoopState
    rw [doLoopAux_stop (attemptCheck env []) N.toNat 0 (by rw [hcheck])]
    rw [hcheck]
  have hdo : doResult env.server (readLoopState env [] N) = .ok r := by
    refine doResult_of_ok env.server _ r ?_ ?_ ?_
    · rw [hst]
      simpa using hsrv
    · rw [hst]
    · rw [hst]
  have hattempts : (readLoopState env [] N).attempts = 1 := by rw [hst]
  unfold runRead
  rw [hprep]
  simp only [hdo, hattempts]
  unfold processResponse
  rw [hread]
  refine ⟨rfl, ?_, ⟨_, rfl, hcode⟩⟩
  by_cases hu : utf8Valid r.body = true
  · simp [hu, hasError]
  · simp only [Bool.not_eq_true] at hu
    simp [hu, hasError, utf8WarnDiag, Diagnostic.isError]

/-- Concrete run for the amended C3, at the same input as the
counterexample. -/
theorem claim3_501_not_retried_check :
    (runRead (specRetry 1)
        (envAlways (.success (respOf 501 "501 Not Implemented" [])))).attemptsMade
      = 1 ∧
    hasError (runRead (specRetry 1)
        (envAlways (.success (respOf 501 "501 Not Implemented" [])))).diagnostics
      = false ∧
    ∃ fr, (runRead (specRetry 1)
        (envAlways (.success (respOf 501 "501 Not Implemented" [])))).result
      = some fr ∧ fr.statusCode = 501 :=
  claim3_501_not_retried (specRetry 1)
    (envAlways (.success (respOf 501 "501 Not Implemented" []))) 1
    { insecureSkipVerify := false, rootCAs := none, certificates := none }
    { method := "GET", url := "http://example.test", headers := [], host := none
    , body := none }
    0 (respOf 501 "501 Not Implemented" []) (by decide) (by decide) rfl rfl rfl rfl

/-- C8: when `caCertPEM` is present but no certificate can be parsed
from it, `read` returns exactly the TLS configuration error diagnostic
and performs no HTTP attempt. -/
theorem claim8_bad_ca_stops_before_network (m : ModelV0) (env : Env) (ca : String)
    (hca : m.caCertPEM = some ca)
    (hparse : env.appendCertsOk ca = false)
    (htr : env.defaultTransportOk = true) :
    (runRead m env).diagnostics =
      [{ severity := .error, summary := "Error configuring TLS client"
       , detail := .tlsCaCert }] ∧
      (runRead m env).result = none ∧
      (runRead m env).attemptsMade = 0 := by
  have hp : prepare m env = .failed
      { severity := .error, summary := "Error configuring TLS client"
      , detail := .tlsCaCert } := by
    unfold prepare
    simp [htr, hca, hparse]
  unfold runRead
  rw [hp]
  exact ⟨rfl, rfl, rfl⟩

/-- Concrete run for C8: an unparseable CA bundle yields the TLS
diagnostic and zero attempts. -/
theorem claim8_bad_ca_stops_before_network_check :
    (runRead { specBase with caCertPEM := some "not a pem" }
        { envAlways (.success (respOf 200 "200 OK" [])) with
            appendCertsOk := fun _ => false }).diagnostics =
      [{ severity := .error, summary := "Error configuring TLS client"
       , detail := .tlsCaCert }] ∧
      (runRead { specBase with caCertPEM := some "not a pem" }
        { envAlways (.success (respOf 200 "200 OK" [])) with
            appendCertsOk := fun _ => false }).result = none ∧
      (runRead { specBase with caCertPEM := some "not a pem" }
        { envAlways (.success (respOf 200 "200 OK" [])) with
            appendCertsOk := fun _ => false }).attemptsMade = 0 :=
  claim8_bad_ca_stops_before_network
    { specBase with caCertPEM := some "not a pem" }
    { envAlways (.success (respOf 200 "200 OK" [])) with
        appendCertsOk := fun _ => false }
    "not a pem" rfl rfl rfl

/-- C9: when the client call succeeded and the body was read but is
not valid UTF-8, `read` attaches exactly the UTF-8 warning (non-fatal)
and still constructs the full result containing those body bytes. -/
theorem claim9_invalid_utf8_only_warns (m : ModelV0) (env : Env)
    (tr : Transport) (req : HttpRequest) (rmax t : Int) (codes : List Int)
    (r : Response)
    (hprep : prepare m env = .ready tr req rmax t codes)
    (hdo : doResult env.server (readLoopState env codes rmax) = .ok r)
    (hread : r.bodyReadErr = none)
    (hutf : utf8Valid r.body = false) :
    ∃ fr, (runRead m env).result = some fr ∧ fr.responseBody = r.body ∧
      (runRead m env).diagnostics = [utf8WarnDiag] ∧
      hasError (runRead m env).diagnostics = false := by
  unfold runRead
  rw [hprep]
  simp only [hdo]
  unfold processResponse
  rw [hread]
  simp only [hutf]
  exact ⟨_, rfl, rfl, rfl, rfl⟩

/-- Concrete run for C9: a body of one byte 0xFF (invalid UTF-8) still
produces a result, with only the warning attached. -/
theorem claim9_invalid_utf8_only_warns_check :
    ∃ fr, (runRead specBase
        (envAlways (.success (respOf 200 "200 OK" [255])))).result = some fr ∧
      fr.responseBody = [255] ∧
      (runRead specBase
        (envAlways (.success (respOf 200 "200 OK" [255])))).diagnostics =
        [utf8WarnDiag] ∧
      hasError (runRead specBase
        (envAlways (.success (respOf 200 "200 OK" [255])))).diagnostics = false :=
  claim9_invalid_utf8_only_warns specBase
    (envAlways (.success (respOf 200 "200 OK" [255])))
    { insecureSkipVerify := false, rootCAs := none, certificates := none }
    { method := "GET", url := "http://example.test", headers := [], host := none
    , body := none }
    0 0 [] (respOf 200 "200 OK" [255]) (by decide) rfl rfl (by decide)

/-- C6: every result constructed by `read` satisfies: decoding its
`responseBodyBase64` with standard base64 yields exactly its raw
response bytes, and the deprecated `body` field holds the same
bytes as `responseBody`. -/
theorem claim6_body_encodings_agree (m : ModelV0) (env : Env) (fr : FetchResult)
    (hres : (runRead m env).result = some fr)
    (hbytes : ∀ b ∈ fr.responseBody, b < 256) :
    base64Decode fr.responseBodyBase64 = some fr.responseBody ∧
      fr.body = fr.responseBody := by
  unfold runRead processResponse at hres
  repeat' split at hres
  all_goals simp at hres
  all_goals
    subst hres
  all_goals
    refine ⟨?_, rfl⟩
  all_goals
    exact base64_decode_encode _ (by simpa using hbytes)

/-- Concrete run for C6: the encodings of a two-byte body agree. -/
theorem claim6_body_encodings_agree_check :
    ∃ fr, (runRead specBase
        (envAlways (.success (respOf 200 "200 OK" [104, 105])))).result = some fr ∧
      base64Decode fr.responseBodyBase64 = some fr.responseBody ∧
      fr.body = fr.responseBody :=
  ⟨{ id := "http://example.test", responseHeaders := [], responseBody := [104, 105]
   , body := [104, 105], responseBodyBase64 := base64Encode [104, 105]
   , statusCode := 200 }
  , rfl
  , claim6_body_encodings_agree specBase
      (envAlways (.success (respOf 200 "200 OK" [104, 105]))) _ rfl (by decide)⟩

/-- C7: the result fields (in particular `statusCode`) are set if and
only if the invocation produced no fatal diagnostic. -/
theorem claim7_result_iff_no_fatal (m : ModelV0) (env : Env) :
    ((runRead m env).result.isSome = true) ↔
      (hasError (runRead m env).diagnostics = false) := by
  unfold runRead
  cases hp : prepare m env with
  | failed d =>
    have hd := prepare_failed_severity m env d hp
    simp [hasError, isError_of_severity d hd]
  | ready tr req rmax t codes =>
    dsimp only []
    cases hdo : doResult env.server (readLoopState env codes rmax) with
    | error e =>
      simp [hasError, isError_of_severity _ (mkDoErrDiag_severity t e)]
    | ok r =>
      unfold processResponse
      cases hre : r.bodyReadErr with
      | some e => simp [hre, hasError, Diagnostic.isError]
      | none =>
        by_cases hu : utf8Valid r.body = true
        · simp [hre, hu, hasError]
        · simp only [Bool.not_eq_true] at hu
          simp [hre, hu, hasError, utf8WarnDiag, Diagnostic.isError]

/-- A setup reaching `ready` without both client TLS fields present
leaves the transport without a client identity. -/
theorem prepare_ready_no_certs (m : ModelV0) (env : Env)
    (tr : Transport) (req : HttpRequest) (rmax t : Int) (codes : List Int)
    (h : m.clientCertPEM = none ∨ m.clientKeyPEM = none)
    (hready : prepare m env = .ready tr req rmax t codes) :
    tr.certificates = none := by
  unfold prepare prepareClientCert prepareRequest at hready
  repeat' split at hready
  all_goals simp_all
  all_goals (rw [← hready.1])

/-- C10: when exactly one of `clientCertPEM` and `clientKeyPEM` is
present, `read` behaves exactly as if neither were given — no
diagnostic is raised for the lone field — and any prepared transport
carries no client identity. -/
theorem claim10_lone_client_field_ignored (m : ModelV0) (env : Env)
    (h : (m.clientCertPEM.isSome = true ∧ m.clientKeyPEM = none) ∨
         (m.clientCertPEM = none ∧ m.clientKeyPEM.isSome = true)) :
    runRead m env =
      runRead { m with clientCertPEM := none, clientKeyPEM := none } env ∧
    ∀ tr req rmax t codes, prepare m env = .ready tr req rmax t codes →
      tr.certificates = none := by
  have hnone : m.clientCertPEM = none ∨ m.clientKeyPEM = none := by
    rcases h with ⟨_, hk⟩ | ⟨hc, _⟩
    · exact Or.inr hk
    · exact Or.inl hc
  have hstrip : prepare m env =
      prepare { m with clientCertPEM := none, clientKeyPEM := none } env := by
    rcases h with ⟨hc, hk⟩ | ⟨hc, hk⟩
    · rcases Option.isSome_iff_exists.mp hc with ⟨c, hc2⟩
      unfold prepare prepareClientCert
      simp only [hc2, hk]
      rfl
    · rcases Option.isSome_iff_exists.mp hk with ⟨k, hk2⟩
      unfold prepare prepareClientCert
      simp only [hc, hk2]
      rfl
  constructor
  · unfold runRead
    rw [hstrip]
  · intro tr req rmax t codes hr
    exact prepare_ready_no_certs m env tr req rmax t codes hnone hr

/-- Concrete run for C10: a lone client certificate is ignored and the
prepared transport carries no client identity. -/
theorem claim10_lone_client_field_ignored_check :
    runRead { specBase with clientCertPEM := some "cert only" }
        (envAlways (.success (respOf 200 "200 OK" []))) =
      runRead { { specBase with clientCertPEM := some "cert only" } with
          clientCertPEM := none, clientKeyPEM := none }
        (envAlways (.success (respOf 200 "200 OK" []))) ∧
    Transport.certificates
      { insecureSkipVerify := false, rootCAs := none, certificates := none } =
      none :=
  ⟨(claim10_lone_client_field_ignored
      { specBase with clientCertPEM := some "cert only" }
      (envAlways (.success (respOf 200 "200 OK" [])))
      (Or.inl ⟨rfl, rfl⟩)).1,
   (claim10_lone_client_field_ignored
      { specBase with clientCertPEM := some "cert only" }
      (envAlways (.success (respOf 200 "200 OK" [])))
      (Or.inl ⟨rfl, rfl⟩)).2
     { insecureSkipVerify := false, rootCAs := none, certificates := none }
     { method := "GET", url := "http://example.test", headers := [], host := none
     , body := none }
     0 0 [] (by decide)⟩
